import Mathlib

set_option maxRecDepth 8000

namespace ProxmoxBot

/-!
Shallow embedding of the proxmoxbot repository (a Discord front end for a
Proxmox cluster).  Pure helpers from `utils/common.py`, `utils/api.py`,
`cogs/management.py`, `cogs/monitoring.py` and `cogs/basic.py` are translated
into executable Lean definitions; the hypervisor, the chat platform and the
watchlist file are modelled as explicit environments, and every command
handler is a function from those environments to the list of messages it
sends and the list of hypervisor calls it issues.
-/

/-! ### Decimal numerals and the JSON integer-array file format

`save_monitor_list` writes the watchlist with `json.dump(ids, f)` and
`load_monitor_list` reads it back with `json.load(f)` (cogs/monitoring.py).
For a Python `list[int]`, `json.dump` renders `[a, b, c]` with `", "`
separators and `repr`-style decimal numerals; the loader below parses exactly
that canonical shape (the stdlib accepts more whitespace variants, which the
repository never produces). -/

/-- The decimal digit character for `d < 10`, as Python renders numerals. -/
def digitChar (d : Nat) : Char := Char.ofNat (48 + d)

/-- Big-endian decimal digit characters of a natural number. -/
def toDigits (n : Nat) : List Char :=
  if n < 10 then [digitChar n]
  else toDigits (n / 10) ++ [digitChar (n % 10)]
termination_by n
decreasing_by exact Nat.div_lt_self (by omega) (by omega)

/-- Number of decimal digits of a natural number (at least one). -/
def numDigits (n : Nat) : Nat :=
  if n < 10 then 1 else numDigits (n / 10) + 1
termination_by n
decreasing_by exact Nat.div_lt_self (by omega) (by omega)

/-- Python `repr` of an `int`: optional minus sign followed by the digits. -/
def intStr (n : ℤ) : List Char :=
  if n < 0 then '-' :: toDigits n.natAbs else toDigits n.toNat

/-- Consume a maximal run of leading digit characters, folding them onto an
accumulator (the usual left-to-right decimal evaluation). -/
def parseNat : List Char → Nat → Nat × List Char
  | [], acc => (acc, [])
  | c :: cs, acc =>
    if c.isDigit then parseNat cs (10 * acc + (c.toNat - 48)) else (acc, c :: cs)

/-- Parse one (possibly negative) decimal integer from the front of the
character list; `Option.none` when the input does not start with a numeral. -/
def parseInt : List Char → Option (ℤ × List Char)
  | [] => Option.none
  | c :: cs =>
    if c = '-' then
      match cs with
      | [] => Option.none
      | c2 :: _ =>
        if c2.isDigit then
          let p := parseNat cs 0
          some (-(p.1 : ℤ), p.2)
        else Option.none
    else if c.isDigit then
      let p := parseNat (c :: cs) 0
      some ((p.1 : ℤ), p.2)
    else Option.none

/-- The body of `json.dump` for a `list[int]`: items joined by `", "`. -/
def dumpItems : List ℤ → List Char
  | [] => []
  | [x] => intStr x
  | x :: y :: xs => intStr x ++ ',' :: ' ' :: dumpItems (y :: xs)

/-- `json.dump(ids, f)` for a Python `list[int]`. -/
def jsonDumpList (ids : List ℤ) : String := ⟨'[' :: dumpItems ids ++ [']']⟩

/-- Parse the item region of a JSON integer array (everything after the
opening bracket of a nonempty array), fuel-bounded. -/
def parseItems : Nat → List Char → Option (List ℤ)
  | 0, _ => Option.none
  | fuel + 1, cs =>
    match parseInt cs with
    | Option.none => Option.none
    | some (x, rest) =>
      match rest with
      | [']'] => some [x]
      | ',' :: ' ' :: more =>
        match parseItems fuel more with
        | some xs => some (x :: xs)
        | Option.none => Option.none
      | _ => Option.none

/-- `json.load` specialised to the integer arrays this repository writes. -/
def jsonLoadIntList (s : String) : Option (List ℤ) :=
  match s.data with
  | c :: rest =>
    if c = '[' then
      if rest = [']'] then some [] else parseItems rest.length rest
    else Option.none
  | [] => Option.none

lemma digitChar_isDigit {d : Nat} (hd : d < 10) : (digitChar d).isDigit = true := by
  interval_cases d <;> decide

lemma digitChar_toNat {d : Nat} (hd : d < 10) : (digitChar d).toNat = 48 + d := by
  interval_cases d <;> decide

lemma digitChar_ne_minus {d : Nat} (hd : d < 10) : digitChar d ≠ '-' := by
  interval_cases d <;> decide

lemma toDigits_head (n : Nat) : ∃ d cs, toDigits n = digitChar d :: cs ∧ d < 10 := by
  induction n using Nat.strong_induction_on with
  | _ n ih =>
    rw [toDigits]
    by_cases h : n < 10
    · exact ⟨n, [], by simp [h], h⟩
    · obtain ⟨d, cs, hd, hlt⟩ := ih (n / 10) (Nat.div_lt_self (by omega) (by omega))
      exact ⟨d, cs ++ [digitChar (n % 10)], by simp [h, hd], hlt⟩

lemma toDigits_ne_nil (n : Nat) : toDigits n ≠ [] := by
  obtain ⟨d, cs, hd, _⟩ := toDigits_head n
  simp [hd]

/-- Left-to-right digit consumption over an appended digit block. -/
lemma parseNat_toDigits_append (n : Nat) :
    ∀ (rest : List Char) (acc : Nat),
      parseNat (toDigits n ++ rest) acc = parseNat rest (acc * 10 ^ numDigits n + n) := by
  induction n using Nat.strong_induction_on with
  | _ n ih =>
    intro rest acc
    rw [toDigits, numDigits]
    by_cases h : n < 10
    · simp only [if_pos h, List.cons_append, List.nil_append, parseNat,
        digitChar_isDigit h, if_true, digitChar_toNat h]
      have : 10 * acc + (48 + n - 48) = acc * 10 ^ 1 + n := by ring_nf; omega
      rw [this]
    · have hmod : n % 10 < 10 := Nat.mod_lt _ (by omega)
      simp only [if_neg h, List.append_assoc, List.cons_append, List.nil_append]
      rw [ih (n / 10) (Nat.div_lt_self (by omega) (by omega))]
      simp only [parseNat, digitChar_isDigit hmod, if_true, digitChar_toNat hmod]
      have : 10 * (acc * 10 ^ numDigits (n / 10) + n / 10) + (48 + n % 10 - 48)
      = acc * 10 ^ (numDigits (n / 10) + 1) + n := by
        ring_nf
        omega
      rw [this]

/-- A character list whose head is not a digit is left untouched. -/
lemma parseNat_stop {rest : List Char} (acc : Nat)
    (h : ∀ c cs, rest = c :: cs → c.isDigit = false) : parseNat rest acc = (acc, rest) := by
  cases rest with
  | nil => rfl
  | cons c cs => simp [parseNat, h c cs rfl]

lemma parseNat_toDigits (n : Nat) {rest : List Char}
    (h : ∀ c cs, rest = c :: cs → c.isDigit = false) :
    parseNat (toDigits n ++ rest) 0 = (n, rest) := by
  rw [parseNat_toDigits_append, parseNat_stop _ h]
  simp

/-- `parseInt` inverts `intStr` when the remainder does not start with a digit. -/
lemma parseInt_intStr (n : ℤ) {rest : List Char}
    (h : ∀ c cs, rest = c :: cs → c.isDigit = false) :
    parseInt (intStr n ++ rest) = some (n, rest) := by
  by_cases hn : n < 0
  · have hcast : ((n.natAbs : ℤ)) = -n := by omega
    obtain ⟨d, cs, hd, hlt⟩ := toDigits_head n.natAbs
    simp only [intStr, if_pos hn, List.cons_append, parseInt, if_pos rfl]
    rw [hd]
    simp only [List.cons_append, digitChar_isDigit hlt, if_true]
    rw [← List.cons_append, ← hd, parseNat_toDigits _ h]
    simp only [Option.some.injEq, Prod.mk.injEq, hcast, neg_neg]
  · have hcast : ((n.toNat : ℤ)) = n := by omega
    obtain ⟨d, cs, hd, hlt⟩ := toDigits_head n.toNat
    simp only [intStr, if_neg hn]
    rw [hd]
    simp only [List.cons_append, parseInt, digitChar_ne_minus hlt, if_false,
      digitChar_isDigit hlt, if_true]
    rw [← List.cons_append, ← hd, parseNat_toDigits _ h]
    simp only [Option.some.injEq, Prod.mk.injEq, hcast]

lemma intStr_ne_nil (x : ℤ) : intStr x ≠ [] := by
  unfold intStr
  by_cases hx : x < 0
  · simp [hx]
  · simp only [if_neg hx]
    exact toDigits_ne_nil _

lemma dumpItems_ne_nil {x : ℤ} {xs : List ℤ} : dumpItems (x :: xs) ≠ [] := by
  cases xs with
  | nil => exact intStr_ne_nil x
  | cons y ys =>
    simp only [dumpItems]
    intro hcon
    rcases List.append_eq_nil.mp hcon with ⟨h1, -⟩
    exact intStr_ne_nil x h1

lemma parseItems_dumpItems :
    ∀ (ids : List ℤ) (fuel : Nat), ids ≠ [] → ids.length ≤ fuel →
      parseItems fuel (dumpItems ids ++ [']']) = some ids := by
  intro ids
  induction ids with
  | nil => intro fuel h; exact absurd rfl h
  | cons x xs ih =>
    intro fuel _ hlen
    have hpos : 1 ≤ fuel := le_trans (by simp) hlen
    obtain ⟨f, rfl⟩ : ∃ f, fuel = f + 1 := ⟨fuel - 1, by omega⟩
    cases xs with
    | nil =>
      have hstop : ∀ c cs, ([']'] : List Char) = c :: cs → c.isDigit = false := by
        intro c cs hc
        cases hc
        decide
      simp [dumpItems, parseItems, parseInt_intStr x hstop]
    | cons y ys =>
      have hstop : ∀ c cs,
          (',' :: ' ' :: (dumpItems (y :: ys) ++ [']']) : List Char) = c :: cs →
            c.isDigit = false := by
        intro c cs hc
        cases hc
        decide
      have hrec := ih f (by simp) (by simp only [List.length_cons] at hlen ⊢; omega)
      simp only [dumpItems, List.append_assoc, List.cons_append, List.nil_append]
      simp [parseItems, parseInt_intStr x hstop, hrec]

/-- Round trip at the character level: loading a dumped integer list returns
exactly the dumped list. -/
theorem jsonLoad_jsonDump (ids : List ℤ) : jsonLoadIntList (jsonDumpList ids) = some ids := by
  cases ids with
  | nil => rfl
  | cons x xs =>
    have hne : dumpItems (x :: xs) ≠ [] := dumpItems_ne_nil
    have hlen : (x :: xs).length ≤ (dumpItems (x :: xs) ++ [']']).length := by
      have : ∀ (ids : List ℤ), ids.length ≤ (dumpItems ids).length + 1 := by
        intro ids
        induction ids with
        | nil => simp
        | cons a as iha =>
          cases as with
          | nil => simp [dumpItems]
          | cons b bs =>
            simp only [dumpItems, List.length_append, List.length_cons]
            have := iha
            simp only [List.length_cons] at this ⊢
            omega
      simpa using this (x :: xs)
    have hneq : dumpItems (x :: xs) ++ [']'] ≠ [']'] := by
      intro hcon
      have hlencon := congrArg List.length hcon
      simp only [List.length_append, List.length_cons, List.length_nil] at hlencon
      exact hne (List.length_eq_zero.mp (by omega))
    have hred : jsonLoadIntList (jsonDumpList (x :: xs)) =
        (if dumpItems (x :: xs) ++ [']'] = [']'] then some ([] : List ℤ)
         else parseItems (dumpItems (x :: xs) ++ [']']).length
           (dumpItems (x :: xs) ++ [']'])) := rfl
    rw [hred, if_neg hneq]
    exact parseItems_dumpItems (x :: xs) _ (by simp) hlen

/-! ### Data model

The hypervisor, the chat invocation context and the configuration are explicit
values; `Except.error` models a raised exception from a hypervisor call, and
`Option.none` on a record field models an absent key (`dict.get` returning
`None`). -/

/-- A scalar as Python hands it to the bot (the `vmid` field of an inventory
record may arrive as a number or as a numeric string; `noneV` is `None`). -/
inductive PyVal where
  | int (n : ℤ)
  | str (s : String)
  | noneV
deriving DecidableEq

/-- Python `int(x)` on such a scalar; `Option.none` models the raised
`ValueError`/`TypeError` when `x` is a non-numeric string or `None`. -/
def pyToInt : PyVal → Option ℤ
  | .int n => some n
  | .str s =>
    match parseInt s.data with
    | some (n, []) => some n
    | _ => Option.none
  | .noneV => Option.none

/-- One record of `cluster.resources.get(type='vm')`. -/
structure Resource where
  vmid : PyVal
  node : Option String
  ty : Option String
  name : Option String
  status : Option String
deriving DecidableEq

/-- The record returned by `status.current.get`. -/
structure StatusData where
  status : Option String
  name : Option String
deriving DecidableEq

/-- The hypervisor's response to each call the bot can make, keyed by the
argument that varies; `Except.error e` is a raised exception rendered as `e`. -/
structure Hyp where
  resources : Except String (List Resource)
  clonePost : ℤ → ℤ → String → Except String Unit
  configPost : ℤ → ℤ → ℤ → Except String Unit
  startPost : ℤ → Except String Unit
  rebootPost : ℤ → Except String Unit
  shutdownPost : ℤ → Except String Unit
  stopPost : ℤ → Except String Unit
  deletePost : ℤ → Except String Unit
  snapshotPost : ℤ → String → Except String Unit
  snapshotGet : ℤ → Except String (List (Option String))
  rollbackPost : String → Except String Unit
  statusCurrentGet : ℤ → Except String StatusData

/-- A hypervisor API call, as issued through the async bridge. `sleep` records
the fixed grace period `asyncio.sleep(2)` inside `delete` (not a hypervisor
call, but part of the observable step sequence). -/
inductive Call where
  | clusterResourcesGet
  | clone (node : String) (templateId newId : ℤ) (name : String)
  | configPost (node ty : String) (vmid cores memoryMb : ℤ)
  | startPost (node ty : String) (vmid : ℤ)
  | rebootPost (node ty : String) (vmid : ℤ)
  | shutdownPost (node ty : String) (vmid : ℤ)
  | stopPost (node ty : String) (vmid : ℤ)
  | deletePost (node ty : String) (vmid : ℤ)
  | sleep (seconds : Nat)
  | snapshotPost (node ty : String) (vmid : ℤ) (name : String)
  | snapshotGet (node ty : String) (vmid : ℤ)
  | rollbackPost (node ty : String) (vmid : ℤ) (name : String)
  | statusCurrentGet (node ty : String) (vmid : ℤ)
deriving DecidableEq

/-- What one handler invocation observably does: the chat messages it sends
and the hypervisor calls it issues, in order. -/
structure Effects where
  msgs : List String
  calls : List Call
deriving DecidableEq

def Effects.append (a b : Effects) : Effects := ⟨a.msgs ++ b.msgs, a.calls ++ b.calls⟩

/-- The invocation context: `getattr(interaction.channel, 'category_id', None)`
(absent channel or category yields `Option.none`). -/
structure Interaction where
  categoryId : Option ℤ
deriving DecidableEq

/-- The configuration module fields the core reads. -/
structure BotConfig where
  allowedCategoryId : ℤ
  nodeName : String
  monitorVmIds : List ℤ
deriving DecidableEq

/-- The fixed denial message of `utils/common.py check_access`. -/
def accessDeniedMsg : String :=
  "❌ このコマンドは指定された管理カテゴリ内のチャンネルでのみ使用可能です。"

/-- `utils/common.py check_access`: denial message when the channel category
does not equal `config.ALLOWED_CATEGORY_ID`, `None` (permit) otherwise. -/
def check_access (cfg : BotConfig) (i : Interaction) : Option String :=
  if i.categoryId ≠ some cfg.allowedCategoryId then some accessDeniedMsg else Option.none

/-- The linear scan inside `get_device_node_and_type`: first record whose
`int(res.get('vmid'))` equals `int(vmid)` yields `(res.get('node'),
res.get('type'))`; a record on which `int` raises aborts the scan into the
`except` branch, which returns `(None, None)`. -/
def scanResources (vmid : ℤ) : List Resource → Option String × Option String
  | [] => (Option.none, Option.none)
  | r :: rs =>
    match pyToInt r.vmid with
    | Option.none => (Option.none, Option.none)
    | some n => if n = vmid then (r.node, r.ty) else scanResources vmid rs

/-- `utils/api.py get_device_node_and_type`: fresh inventory fetch, then the
scan; a failed fetch is caught and also yields `(None, None)`. -/
def get_device_node_and_type (h : Hyp) (vmid : ℤ) : Option String × Option String :=
  match h.resources with
  | .error _ => (Option.none, Option.none)
  | .ok rs => scanResources vmid rs

/-- Python truthiness of an optional string (`not node`). -/
def truthy : Option String → Bool
  | Option.none => false
  | some s => !(s == "")

/-- The `if not node or not vm_type:` guard that follows every resolution:
`some (node, ty)` exactly when both components are truthy strings. -/
def resolveTruthy (h : Hyp) (vmid : ℤ) : Option (String × String) :=
  match get_device_node_and_type h vmid with
  | (some node, some ty) =>
    if node = "" ∨ ty = "" then Option.none else some (node, ty)
  | _ => Option.none

def vmidNotFoundMsg (vmid : ℤ) : String :=
  "❌ VMID " ++ toString vmid ++ " が見つかりません。"

/-- Python string interpolation of a value that may be `None`. -/
def pyShow : Option String → String
  | Option.none => "None"
  | some s => s

/-! ### cogs/management.py commands -/

/-- `Management.create`: access gate, then clone against `config.NODE_NAME`. -/
def create_cmd (cfg : BotConfig) (i : Interaction) (h : Hyp)
    (templateId newVmid : ℤ) (name : String) : Effects :=
  match check_access cfg i with
  | some err => ⟨[err], []⟩
  | Option.none =>
    match h.clonePost templateId newVmid name with
    | .ok _ =>
      ⟨["✅ **作成完了**: `" ++ name ++ "` (ID: " ++ toString newVmid ++ ")\n" ++
        "Cloud-Init設定により起動後にTailscaleへ接続されます。\n" ++
        "起動コマンド: `/start vmid:" ++ toString newVmid ++ "`"],
       [Call.clone cfg.nodeName templateId newVmid name]⟩
    | .error e =>
      ⟨["❌ 作成失敗: " ++ e], [Call.clone cfg.nodeName templateId newVmid name]⟩

/-- `Management.resize`: gate, resolve, then replace cores+memory. -/
def resize_cmd (cfg : BotConfig) (i : Interaction) (h : Hyp)
    (vmid cores memoryMb : ℤ) : Effects :=
  match check_access cfg i with
  | some err => ⟨[err], []⟩
  | Option.none =>
    match resolveTruthy h vmid with
    | Option.none => ⟨[vmidNotFoundMsg vmid], [Call.clusterResourcesGet]⟩
    | some (node, ty) =>
      match h.configPost vmid cores memoryMb with
      | .ok _ =>
        ⟨["⚙️ **設定変更**: VMID " ++ toString vmid ++ " → " ++ toString cores ++
          " Cores, " ++ toString memoryMb ++ " MB\n⚠️ 再起動後に適用されます。"],
         [Call.clusterResourcesGet, Call.configPost node ty vmid cores memoryMb]⟩
      | .error e =>
        ⟨["❌ 変更失敗: " ++ e],
         [Call.clusterResourcesGet, Call.configPost node ty vmid cores memoryMb]⟩

/-- `Management.start`. -/
def start_cmd (cfg : BotConfig) (i : Interaction) (h : Hyp) (vmid : ℤ) : Effects :=
  match check_access cfg i with
  | some err => ⟨[err], []⟩
  | Option.none =>
    match resolveTruthy h vmid with
    | Option.none => ⟨[vmidNotFoundMsg vmid], [Call.clusterResourcesGet]⟩
    | some (node, ty) =>
      match h.startPost vmid with
      | .ok _ =>
        ⟨["▶️ VMID: " ++ toString vmid ++ " を起動しました。"],
         [Call.clusterResourcesGet, Call.startPost node ty vmid]⟩
      | .error e =>
        ⟨["❌ 起動失敗: " ++ e], [Call.clusterResourcesGet, Call.startPost node ty vmid]⟩

/-- `Management.reboot`. -/
def reboot_cmd (cfg : BotConfig) (i : Interaction) (h : Hyp) (vmid : ℤ) : Effects :=
  match check_access cfg i with
  | some err => ⟨[err], []⟩
  | Option.none =>
    match resolveTruthy h vmid with
    | Option.none => ⟨[vmidNotFoundMsg vmid], [Call.clusterResourcesGet]⟩
    | some (node, ty) =>
      match h.rebootPost vmid with
      | .ok _ =>
        ⟨["🔄 VMID: " ++ toString vmid ++ " を再起動中..."],
         [Call.clusterResourcesGet, Call.rebootPost node ty vmid]⟩
      | .error e =>
        ⟨["❌ 再起動失敗: " ++ e], [Call.clusterResourcesGet, Call.rebootPost node ty vmid]⟩

/-- `Management.shutdown` (ACPI). -/
def shutdown_cmd (cfg : BotConfig) (i : Interaction) (h : Hyp) (vmid : ℤ) : Effects :=
  match check_access cfg i with
  | some err => ⟨[err], []⟩
  | Option.none =>
    match resolveTruthy h vmid with
    | Option.none => ⟨[vmidNotFoundMsg vmid], [Call.clusterResourcesGet]⟩
    | some (node, ty) =>
      match h.shutdownPost vmid with
      | .ok _ =>
        ⟨["🛑 **シャットダウン信号送信**: VMID " ++ toString vmid],
         [Call.clusterResourcesGet, Call.shutdownPost node ty vmid]⟩
      | .error e =>
        ⟨["❌ 失敗: " ++ e], [Call.clusterResourcesGet, Call.shutdownPost node ty vmid]⟩

def stopWarningMsg (vmid : ℤ) : String :=
  "⚠️ **警告**: VMID " ++ toString vmid ++
  " を強制停止しますか？\n保存されていないデータは失われる可能性があります。"

/-- `Management.stop` itself: after the access gate it only presents the
confirmation prompt; no hypervisor call is made until a button event. -/
def stop_cmd (cfg : BotConfig) (i : Interaction) (vmid : ℤ) : Effects :=
  match check_access cfg i with
  | some err => ⟨[err], []⟩
  | Option.none => ⟨[stopWarningMsg vmid], []⟩

def deleteDoneMsg (vmid : ℤ) : String :=
  "🗑️ **削除完了**: VMID " ++ toString vmid ++ " を削除しました。"

/-- `Management.delete`: gate, resolve, best-effort stop inside
`try ... except: pass` (the 2-second sleep is inside that `try`, so a failed
stop skips it), then the delete call, whose failure alone is reported. -/
def delete_cmd (cfg : BotConfig) (i : Interaction) (h : Hyp) (vmid : ℤ) : Effects :=
  match check_access cfg i with
  | some err => ⟨[err], []⟩
  | Option.none =>
    match resolveTruthy h vmid with
    | Option.none => ⟨[vmidNotFoundMsg vmid], [Call.clusterResourcesGet]⟩
    | some (node, ty) =>
      let pre : List Call :=
        match h.stopPost vmid with
        | .ok _ => [Call.stopPost node ty vmid, Call.sleep 2]
        | .error _ => [Call.stopPost node ty vmid]
      match h.deletePost vmid with
      | .ok _ =>
        ⟨[deleteDoneMsg vmid],
         Call.clusterResourcesGet :: pre ++ [Call.deletePost node ty vmid]⟩
      | .error e =>
        ⟨["❌ 削除失敗: " ++ e],
         Call.clusterResourcesGet :: pre ++ [Call.deletePost node ty vmid]⟩

/-- `Management.snapshot_create`. -/
def snapshot_create_cmd (cfg : BotConfig) (i : Interaction) (h : Hyp)
    (vmid : ℤ) (name : String) : Effects :=
  match check_access cfg i with
  | some err => ⟨[err], []⟩
  | Option.none =>
    match resolveTruthy h vmid with
    | Option.none => ⟨[vmidNotFoundMsg vmid], [Call.clusterResourcesGet]⟩
    | some (node, ty) =>
      match h.snapshotPost vmid name with
      | .ok _ =>
        ⟨["📸 **スナップショット作成**: " ++ name ++ " (VMID: " ++ toString vmid ++ ")"],
         [Call.clusterResourcesGet, Call.snapshotPost node ty vmid name]⟩
      | .error e =>
        ⟨["❌ 作成失敗: " ++ e],
         [Call.clusterResourcesGet, Call.snapshotPost node ty vmid name]⟩

/-- `Management.snapshot_list`: renders one bullet per snapshot name, or the
fixed "no snapshots" line for an empty list. -/
def snapshot_list_cmd (cfg : BotConfig) (i : Interaction) (h : Hyp) (vmid : ℤ) : Effects :=
  match check_access cfg i with
  | some err => ⟨[err], []⟩
  | Option.none =>
    match resolveTruthy h vmid with
    | Option.none => ⟨[vmidNotFoundMsg vmid], [Call.clusterResourcesGet]⟩
    | some (node, ty) =>
      match h.snapshotGet vmid with
      | .error e =>
        ⟨["❌ 取得失敗: " ++ e], [Call.clusterResourcesGet, Call.snapshotGet node ty vmid]⟩
      | .ok snaps =>
        let desc :=
          if snaps = [] then ["スナップショットはありません。"]
          else snaps.map (fun s => "• **" ++ pyShow s ++ "**")
        ⟨[String.intercalate ("\n") desc],
         [Call.clusterResourcesGet, Call.snapshotGet node ty vmid]⟩

def rollbackWarningMsg (vmid : ℤ) (name : String) : String :=
  "⚠️ **警告**: VMID " ++ toString vmid ++ " をスナップショット `" ++ name ++
  "` にロールバックしますか？\n現在の状態は失われます。"

def snapshotNotFoundMsg (name : String) : String :=
  "❌ スナップショット `" ++ name ++ "` が見つかりません。"

/-- `Management.snapshot_rollback`: gate, resolve, verify the named snapshot
exists in the live list, then present the confirmation view (no rollback call
is made by the command itself). -/
def snapshot_rollback_cmd (cfg : BotConfig) (i : Interaction) (h : Hyp)
    (vmid : ℤ) (name : String) : Effects :=
  match check_access cfg i with
  | some err => ⟨[err], []⟩
  | Option.none =>
    match resolveTruthy h vmid with
    | Option.none => ⟨[vmidNotFoundMsg vmid], [Call.clusterResourcesGet]⟩
    | some (node, ty) =>
      match h.snapshotGet vmid with
      | .error e =>
        ⟨["❌ エラー: " ++ e], [Call.clusterResourcesGet, Call.snapshotGet node ty vmid]⟩
      | .ok snaps =>
        if snaps.any (fun s => s == some name) then
          ⟨[rollbackWarningMsg vmid name],
           [Call.clusterResourcesGet, Call.snapshotGet node ty vmid]⟩
        else
          ⟨[snapshotNotFoundMsg name],
           [Call.clusterResourcesGet, Call.snapshotGet node ty vmid]⟩

/-! ### Confirmation views -/

inductive BtnEvent where
  | confirm
  | cancel
deriving DecidableEq

/-- The `confirm_callback` closure of the force-stop prompt in
`Management.stop`: resolve, then hard stop. -/
def forceStopConfirm (h : Hyp) (vmid : ℤ) : Effects :=
  match resolveTruthy h vmid with
  | Option.none => ⟨[vmidNotFoundMsg vmid], [Call.clusterResourcesGet]⟩
  | some (node, ty) =>
    match h.stopPost vmid with
    | .ok _ =>
      ⟨["⚡ **強制停止完了**: VMID " ++ toString vmid],
       [Call.clusterResourcesGet, Call.stopPost node ty vmid]⟩
    | .error e =>
      ⟨["❌ 失敗: " ++ e], [Call.clusterResourcesGet, Call.stopPost node ty vmid]⟩

/-- The `cancel_callback` closure: sends the cancellation notice only. -/
def forceStopCancel : Effects := ⟨["キャンセルしました。"], []⟩

/-- Button events against the force-stop prompt.  The hand-rolled
`discord.ui.View` in `Management.stop` never calls `View.stop()` and never
disables its buttons, so every event inside the timeout window dispatches its
callback again. -/
def runForceStopView (h : Hyp) (vmid : ℤ) : List BtnEvent → Effects
  | [] => ⟨[], []⟩
  | BtnEvent.confirm :: es =>
    Effects.append (forceStopConfirm h vmid) (runForceStopView h vmid es)
  | BtnEvent.cancel :: es =>
    Effects.append forceStopCancel (runForceStopView h vmid es)

/-- State of a `SnapshotRollbackView`: its `value` field and whether
`View.stop()` has been called (a stopped view dispatches no further events). -/
structure RbState where
  value : Option Bool
  stopped : Bool
deriving DecidableEq

def rbInit : RbState := ⟨Option.none, false⟩

def rollbackDoneMsg (snap : String) : String := "✅ **ロールバック完了**: " ++ snap

/-- One button event against `SnapshotRollbackView`: confirm posts the
rollback and stops the view only when the call succeeded; cancel stops the
view without any hypervisor call. -/
def rollbackViewStep (h : Hyp) (node ty : String) (vmid : ℤ) (snap : String)
    (s : RbState) (e : BtnEvent) : RbState × Effects :=
  if s.stopped then (s, ⟨[], []⟩)
  else
    match e with
    | BtnEvent.confirm =>
      match h.rollbackPost snap with
      | .ok _ =>
        (⟨some true, true⟩, ⟨[rollbackDoneMsg snap], [Call.rollbackPost node ty vmid snap]⟩)
      | .error e2 =>
        (s, ⟨["❌ ロールバック失敗: " ++ e2], [Call.rollbackPost node ty vmid snap]⟩)
    | BtnEvent.cancel => (⟨some false, true⟩, ⟨["キャンセルしました。"], []⟩)

def runRollbackView (h : Hyp) (node ty : String) (vmid : ℤ) (snap : String) :
    RbState → List BtnEvent → Effects
  | _, [] => ⟨[], []⟩
  | s, e :: es =>
    let p := rollbackViewStep h node ty vmid snap s e
    Effects.append p.2 (runRollbackView h node ty vmid snap p.1 es)

def isStopCall : Call → Bool
  | Call.stopPost _ _ _ => true
  | _ => false

def isRollbackCall : Call → Bool
  | Call.rollbackPost _ _ _ _ => true
  | _ => false

def stopCallCount (eff : Effects) : Nat := eff.calls.countP isStopCall

def rollbackCallCount (eff : Effects) : Nat := eff.calls.countP isRollbackCall

/-! ### cogs/monitoring.py -/

/-- `load_monitor_list`: a missing file yields the `config.MONITOR_VM_IDS`
seed; an unreadable or unparsable file is caught and yields `[]`. -/
def load_monitor_list (file : Option String) (seed : List ℤ) : List ℤ :=
  match file with
  | Option.none => seed
  | some s =>
    match jsonLoadIntList s with
    | some ids => ids
    | Option.none => []

/-- `save_monitor_list`: the file now holds `json.dump(ids)`. -/
def save_monitor_list (ids : List ℤ) : Option String := some (jsonDumpList ids)

/-- File content after `load_monitor_list` ran (a missing file gets seeded). -/
def loadEnsuresFile (file : Option String) (seed : List ℤ) : Option String :=
  match file with
  | Option.none => save_monitor_list seed
  | some s => some s

/-- Outcome of a monitor command: resulting file content, messages, calls. -/
structure MonEffects where
  file : Option String
  msgs : List String
  calls : List Call
deriving DecidableEq

def alreadyMonitoredMsg (vmid : ℤ) : String :=
  "⚠️ VMID " ++ toString vmid ++ " は既に監視対象です。"

def monitorAddedMsg (vmid : ℤ) : String := "✅ 監視対象に追加: VMID " ++ toString vmid

/-- `Monitoring.monitor_add`: gate; duplicate check against the loaded list;
resolution check (`if not node:` only); else append and persist the whole
list. -/
def monitor_add_cmd (cfg : BotConfig) (i : Interaction) (file : Option String)
    (h : Hyp) (vmid : ℤ) : MonEffects :=
  match check_access cfg i with
  | some err => ⟨file, [err], []⟩
  | Option.none =>
    let file1 := loadEnsuresFile file cfg.monitorVmIds
    let cur := load_monitor_list file cfg.monitorVmIds
    if vmid ∈ cur then ⟨file1, [alreadyMonitoredMsg vmid], []⟩
    else
      if truthy (get_device_node_and_type h vmid).1 = false then
        ⟨file1, [vmidNotFoundMsg vmid], [Call.clusterResourcesGet]⟩
      else
        ⟨save_monitor_list (cur ++ [vmid]), [monitorAddedMsg vmid],
         [Call.clusterResourcesGet]⟩

def notMonitoredMsg (vmid : ℤ) : String :=
  "⚠️ VMID " ++ toString vmid ++ " は監視対象ではありません。"

def monitorRemovedMsg (vmid : ℤ) : String :=
  "🗑️ 監視対象から削除: VMID " ++ toString vmid

/-- `Monitoring.monitor_remove` (`list.remove` drops the first occurrence). -/
def monitor_remove_cmd (cfg : BotConfig) (i : Interaction) (file : Option String)
    (vmid : ℤ) : MonEffects :=
  match check_access cfg i with
  | some err => ⟨file, [err], []⟩
  | Option.none =>
    let file1 := loadEnsuresFile file cfg.monitorVmIds
    let cur := load_monitor_list file cfg.monitorVmIds
    if vmid ∈ cur then
      ⟨save_monitor_list (cur.erase vmid), [monitorRemovedMsg vmid], []⟩
    else ⟨file1, [notMonitoredMsg vmid], []⟩

/-- The dict comprehension `{int(r['vmid']): r for r in resources}`: any record
whose `vmid` does not convert raises, and the `except` branch leaves the map
empty. -/
def buildResourceMap (res : Except String (List Resource)) : List Resource :=
  match res with
  | .error _ => []
  | .ok rs => if rs.all (fun r => (pyToInt r.vmid).isSome) then rs else []

/-- Dict lookup by vmid; a later record with the same key overrides. -/
def mapLookup (rs : List Resource) (vmid : ℤ) : Option Resource :=
  (rs.filter (fun r => pyToInt r.vmid == some vmid)).getLast?

/-- `Monitoring.monitor_list_cmd`. -/
def monitor_list_cmd (cfg : BotConfig) (i : Interaction) (file : Option String)
    (h : Hyp) : MonEffects :=
  match check_access cfg i with
  | some err => ⟨file, [err], []⟩
  | Option.none =>
    let file1 := loadEnsuresFile file cfg.monitorVmIds
    let cur := load_monitor_list file cfg.monitorVmIds
    if cur = [] then ⟨file1, ["監視対象はありません。"], []⟩
    else
      let rmap := buildResourceMap h.resources
      let lines := cur.map (fun vmid =>
        match mapLookup rmap vmid with
        | some r =>
          "• **" ++ toString vmid ++ "**: " ++ pyShow r.name ++ " (" ++
          pyShow r.ty ++ ") - " ++ pyShow r.status
        | Option.none => "• **" ++ toString vmid ++ "**: (Unknown/Deleted)")
      ⟨file1, [String.intercalate ("\n") lines], [Call.clusterResourcesGet]⟩

/-- One observable step of a monitor tick. -/
inductive Step where
  | loadList
  | call (c : Call)
  | alert (vmid : ℤ) (msg : String)
deriving DecidableEq

def alertMsg (vmid : ℤ) (name : Option String) : String :=
  "🚨 **緊急**: VMID " ++ toString vmid ++ " (" ++ pyShow name ++ ") が停止しています！"

/-- The per-id body of `Monitoring.monitor_vms`: resolve (silently skip on
failure), fetch live status (a raised error is caught and logged for this id
only), alert exactly when the status is the string `stopped`. -/
def monitor_tick_one (h : Hyp) (vmid : ℤ) : List Step :=
  Step.call Call.clusterResourcesGet ::
    match resolveTruthy h vmid with
    | Option.none => []
    | some (node, ty) =>
      Step.call (Call.statusCurrentGet node ty vmid) ::
        match h.statusCurrentGet vmid with
        | .error _ => []
        | .ok sd =>
          if sd.status == some ("stopped") then [Step.alert vmid (alertMsg vmid sd.name)]
          else []

/-- One tick of `Monitoring.monitor_vms`: if the alert channel cannot be
resolved the tick returns before loading the watchlist; otherwise the loaded
list is walked id by id. -/
def monitor_vms_tick (cfg : BotConfig) (channelFound : Bool) (file : Option String)
    (h : Hyp) : List Step :=
  if channelFound = false then []
  else Step.loadList :: (load_monitor_list file cfg.monitorVmIds).flatMap (monitor_tick_one h)

def isAlertFor (vmid : ℤ) : Step → Bool
  | Step.alert v _ => v == vmid
  | _ => false

def alertCountFor (vmid : ℤ) (steps : List Step) : Nat := steps.countP (isAlertFor vmid)

/-- Whether a single watched id alerts on a tick: it must resolve and its live
status must be exactly `stopped`. -/
def perIdAlert (h : Hyp) (vmid : ℤ) : Nat :=
  match resolveTruthy h vmid with
  | Option.none => 0
  | some _ =>
    match h.statusCurrentGet vmid with
    | .error _ => 0
    | .ok sd => if sd.status == some ("stopped") then 1 else 0

/-! ### cogs/basic.py info rendering -/

/-- Floor of an exact rational (`Rat.num.fdiv den`), used to define the
half-even rounding of Python float formatting. -/
def ratFloor (q : ℚ) : ℤ := Int.fdiv q.num q.den

/-- The fractional part `q - ⌊q⌋`, written with `mkRat` so it evaluates. -/
def fracPart (q : ℚ) : ℚ := mkRat (q.num - ratFloor q * q.den) q.den

/-- Python `format(x, '.0f')` rounding (round half to even) on an exact
rational value; comparisons through `Rat.blt`, the decision procedure of
rational order. -/
def fmt0f (q : ℚ) : ℤ :=
  let f := ratFloor q
  let frac := fracPart q
  if Rat.blt frac (mkRat 1 2) then f
  else if Rat.blt (mkRat 1 2) frac then f + 1
  else if f % 2 = 0 then f else f + 1

/-- `int(status.get('maxmem', 0)) / 1024 / 1024`: two successive exact
divisions by 1024 equal one division by 1048576, and the Python float value
is exact for the byte counts at issue. -/
def bytesToMB (b : ℤ) : ℚ := mkRat b (1024 * 1024)

/-- The `Memory` field of `BasicCommands.info`:
`f"{cur_mem:.0f}MB / {max_mem:.0f}MB"`. -/
def memoryFieldValue (maxmem mem : ℤ) : String :=
  toString (fmt0f (bytesToMB mem)) ++ "MB / " ++ toString (fmt0f (bytesToMB maxmem)) ++ "MB"

def pad2 (n : Nat) : String := if n < 10 then "0" ++ toString n else toString n

/-- `str(timedelta(seconds=n))` for nonnegative `n`: `H:MM:SS` with unpadded
hours, prefixed by a day count when `n` reaches a day. -/
def timedeltaStr (total : Nat) : String :=
  let days := total / 86400
  let rem := total % 86400
  let hh := rem / 3600
  let mm := (rem % 3600) / 60
  let ss := rem % 60
  let hms := toString hh ++ ":" ++ pad2 mm ++ ":" ++ pad2 ss
  if days = 0 then hms
  else if days = 1 then "1 day, " ++ hms
  else toString days ++ " days, " ++ hms

/-! ### Module-level name binding of utils/api.py versus cogs/basic.py -/

/-- The names bound at module level in `utils/api.py` after it executes: its
imports (`asyncio`, `urllib3`, `ProxmoxAPI`, `discord`, `app_commands`,
`config`) and its definitions. -/
def utilsApiNames : List String :=
  ["asyncio", "urllib3", "ProxmoxAPI", "discord", "app_commands", "config",
   "AsyncProxmox", "proxmox_wrapper", "get_device_node_and_type", "vmid_autocomplete"]

/-- The names `cogs/basic.py` line 5 demands from `utils.api`. -/
def basicImportNames : List String :=
  ["proxmox", "run_proxmox_async", "get_device_node_and_type", "check_access",
   "vmid_autocomplete"]

/-- A `from utils.api import ...` succeeds exactly when every demanded name is
bound in the module. -/
def basicImportSucceeds : Bool :=
  basicImportNames.all (fun n => utilsApiNames.contains n)

/-! ### Concrete fixtures used by the witnesses -/

def resEx : Resource :=
  ⟨PyVal.int 100, some ("pve"), some ("qemu"), some ("vm100"), some ("running")⟩

/-- An inventory record whose `vmid` arrives as the string `"105"`. -/
def resExStr : Resource :=
  ⟨PyVal.str ("105"), some ("pve2"), some ("lxc"), some ("ct105"), some ("stopped")⟩

def hypEx : Hyp :=
  { resources := Except.ok [resEx, resExStr]
    clonePost := fun _ _ _ => Except.ok ()
    configPost := fun _ _ _ => Except.ok ()
    startPost := fun _ => Except.ok ()
    rebootPost := fun _ => Except.ok ()
    shutdownPost := fun _ => Except.ok ()
    stopPost := fun _ => Except.ok ()
    deletePost := fun _ => Except.ok ()
    snapshotPost := fun _ _ => Except.ok ()
    snapshotGet := fun _ => Except.ok [some ("snap1")]
    rollbackPost := fun _ => Except.ok ()
    statusCurrentGet := fun _ => Except.ok ⟨some ("stopped"), some ("vm100")⟩ }

/-- The fixture hypervisor with a failing hard-stop call. -/
def hypStopFail : Hyp := { hypEx with stopPost := fun _ => Except.error ("stop boom") }

def cfgEx : BotConfig := ⟨555, "pve", [100]⟩

def iOk : Interaction := ⟨some 555⟩

def iBad : Interaction := ⟨some 7⟩

/-! ### Helper lemmas -/

lemma load_save (ids seed : List ℤ) :
    load_monitor_list (save_monitor_list ids) seed = ids := by
  simp [load_monitor_list, save_monitor_list, jsonLoad_jsonDump]

lemma scanResources_absent (vmid : ℤ) :
    ∀ rs : List Resource, (∀ r ∈ rs, pyToInt r.vmid ≠ some vmid) →
      scanResources vmid rs = (Option.none, Option.none) := by
  intro rs
  induction rs with
  | nil => intro _; rfl
  | cons r rs ih =>
    intro hall
    have hstep : scanResources vmid (r :: rs) =
        (match pyToInt r.vmid with
         | Option.none => (Option.none, Option.none)
         | some n => if n = vmid then (r.node, r.ty) else scanResources vmid rs) := rfl
    rw [hstep]
    cases hp : pyToInt r.vmid with
    | none => rfl
    | some n =>
      have hne : ¬ n = vmid := fun hcon => hall r (by simp) (by rw [hp, hcon])
      show (if n = vmid then (r.node, r.ty) else scanResources vmid rs) =
        (Option.none, Option.none)
      rw [if_neg hne]
      exact ih (fun r2 hr2 => hall r2 (by simp [hr2]))

lemma scanResources_unique (vmid : ℤ) :
    ∀ rs : List Resource, (∀ r ∈ rs, (pyToInt r.vmid).isSome) →
      rs.countP (fun r => pyToInt r.vmid == some vmid) = 1 →
      ∀ r ∈ rs, pyToInt r.vmid = some vmid →
        scanResources vmid rs = (r.node, r.ty) := by
  intro rs
  induction rs with
  | nil => intro _ _ r hr; exact absurd hr (by simp)
  | cons r0 rs ih =>
    intro hall hcount r hr hmatch
    obtain ⟨n0, hn0⟩ := Option.isSome_iff_exists.mp (hall r0 (by simp))
    have hstep : scanResources vmid (r0 :: rs) =
        (match pyToInt r0.vmid with
         | Option.none => (Option.none, Option.none)
         | some n => if n = vmid then (r0.node, r0.ty) else scanResources vmid rs) := rfl
    rw [hstep, hn0]
    by_cases h0 : n0 = vmid
    · show (if n0 = vmid then (r0.node, r0.ty) else scanResources vmid rs) = (r.node, r.ty)
      rw [if_pos h0]
      have hc0 : (fun r => pyToInt r.vmid == some vmid) r0 = true := by
        simp [hn0, h0]
      have hcz : rs.countP (fun r => pyToInt r.vmid == some vmid) = 0 := by
        rw [List.countP_cons_of_pos (fun r => pyToInt r.vmid == some vmid) rs hc0] at hcount
        omega
      rcases List.mem_cons.mp hr with rfl | hr2
      · rfl
      · exfalso
        have := List.countP_eq_zero.mp hcz r hr2
        simp [hmatch] at this
    · show (if n0 = vmid then (r0.node, r0.ty) else scanResources vmid rs) = (r.node, r.ty)
      rw [if_neg h0]
      have hc0 : ¬ (fun r => pyToInt r.vmid == some vmid) r0 = true := by
        simp [hn0, h0]
      have hcs : rs.countP (fun r => pyToInt r.vmid == some vmid) = 1 := by
        rw [List.countP_cons_of_neg (fun r => pyToInt r.vmid == some vmid) rs hc0] at hcount
        exact hcount
      rcases List.mem_cons.mp hr with rfl | hr2
      · exact absurd (hn0.symm.trans hmatch) (by simp [h0])
      · exact ih (fun r2 hr2b => hall r2 (by simp [hr2b])) hcs r hr2 hmatch

lemma stopCallCount_append (a b : Effects) :
    stopCallCount (Effects.append a b) = stopCallCount a + stopCallCount b := by
  simp [stopCallCount, Effects.append, List.countP_append]

lemma rollbackCallCount_append (a b : Effects) :
    rollbackCallCount (Effects.append a b) = rollbackCallCount a + rollbackCallCount b := by
  simp [rollbackCallCount, Effects.append, List.countP_append]

lemma runRollbackView_stopped (h : Hyp) (node ty : String) (vmid : ℤ) (snap : String) :
    ∀ (es : List BtnEvent) (s : RbState), s.stopped = true →
      runRollbackView h node ty vmid snap s es = ⟨[], []⟩ := by
  intro es
  induction es with
  | nil => intro s _; rfl
  | cons e es ih =>
    intro s hs
    simp only [runRollbackView, rollbackViewStep, hs, if_true]
    rw [ih s hs]
    rfl

lemma runRollbackView_le_one (h : Hyp) (node ty : String) (vmid : ℤ) (snap : String)
    (hok : h.rollbackPost snap = Except.ok ()) :
    ∀ (es : List BtnEvent) (s : RbState),
      rollbackCallCount (runRollbackView h node ty vmid snap s es) ≤
        (if s.stopped then 0 else 1) := by
  intro es
  induction es with
  | nil =>
    intro s
    simp only [runRollbackView]
    exact le_trans (by simp [rollbackCallCount]) (Nat.zero_le _)
  | cons e es ih =>
    intro s
    by_cases hs : s.stopped = true
    · rw [runRollbackView_stopped h node ty vmid snap _ s hs]
      simp [rollbackCallCount, hs]
    · have hsf : s.stopped = false := by
        cases hq : s.stopped
        · rfl
        · exact absurd hq hs
      cases e with
      | confirm =>
        simp only [runRollbackView, rollbackViewStep, hsf, Bool.false_eq_true, if_false, hok]
        rw [rollbackCallCount_append]
        have hrest := runRollbackView_stopped h node ty vmid snap es ⟨some true, true⟩ rfl
        rw [hrest]
        simp [rollbackCallCount, isRollbackCall, hsf]
      | cancel =>
        simp only [runRollbackView, rollbackViewStep, hsf, Bool.false_eq_true, if_false]
        rw [rollbackCallCount_append]
        have hrest := runRollbackView_stopped h node ty vmid snap es ⟨some false, true⟩ rfl
        rw [hrest]
        simp [rollbackCallCount, isRollbackCall, hsf]

lemma forceStopConfirm_count (h : Hyp) (vmid : ℤ) (node ty : String)
    (hres : resolveTruthy h vmid = some (node, ty)) :
    stopCallCount (forceStopConfirm h vmid) = 1 := by
  simp only [forceStopConfirm, hres]
  cases h.stopPost vmid with
  | ok u => simp [stopCallCount, isStopCall]
  | error e => simp [stopCallCount, isStopCall]

lemma runForceStopView_count (h : Hyp) (vmid : ℤ) (node ty : String)
    (hres : resolveTruthy h vmid = some (node, ty)) :
    ∀ es : List BtnEvent,
      stopCallCount (runForceStopView h vmid es) = es.count BtnEvent.confirm := by
  intro es
  induction es with
  | nil => rfl
  | cons e es ih =>
    cases e with
    | confirm =>
      simp only [runForceStopView]
      rw [stopCallCount_append, ih, forceStopConfirm_count h vmid node ty hres,
        List.count_cons_self]
      omega
    | cancel =>
      simp only [runForceStopView]
      rw [stopCallCount_append, ih]
      have : stopCallCount forceStopCancel = 0 := rfl
      rw [this, List.count_cons_of_ne (by decide)]
      omega

lemma alertCountFor_tick_one (h : Hyp) (v w : ℤ) :
    alertCountFor v (monitor_tick_one h w) = if w = v then perIdAlert h w else 0 := by
  unfold monitor_tick_one perIdAlert alertCountFor
  cases hr : resolveTruthy h w with
  | none => simp [isAlertFor]
  | some p =>
    obtain ⟨node, ty⟩ := p
    cases hs : h.statusCurrentGet w with
    | error e => simp [isAlertFor]
    | ok sd =>
      by_cases hst : (sd.status == some ("stopped")) = true
      · simp only [hst, if_true]
        by_cases hw : w = v
        · subst hw
          simp [isAlertFor]
        · simp [isAlertFor, hw, if_neg hw]
      · have hst2 : (sd.status == some ("stopped")) = false := by
          cases hq : (sd.status == some ("stopped"))
          · rfl
          · exact absurd hq hst
        simp [isAlertFor, hst2]

lemma alertCountFor_flatMap (h : Hyp) (v : ℤ) :
    ∀ ids : List ℤ,
      alertCountFor v (ids.flatMap (monitor_tick_one h)) =
        ids.count v * perIdAlert h v := by
  intro ids
  induction ids with
  | nil => simp [alertCountFor]
  | cons w ids ih =>
    simp only [List.flatMap_cons]
    have happ : alertCountFor v (monitor_tick_one h w ++ ids.flatMap (monitor_tick_one h)) =
        alertCountFor v (monitor_tick_one h w) +
          alertCountFor v (ids.flatMap (monitor_tick_one h)) := by
      simp [alertCountFor, List.countP_append]
    rw [happ, ih, alertCountFor_tick_one]
    by_cases hw : w = v
    · subst hw
      rw [if_pos rfl, List.count_cons_self]
      ring
    · rw [if_neg hw, List.count_cons_of_ne (Ne.symm hw)]
      omega

lemma deleteDoneMsg_ne_fail (vmid : ℤ) (e : String) :
    deleteDoneMsg vmid ≠ "❌ 削除失敗: " ++ e := by
  intro hcon
  have h1 : (deleteDoneMsg vmid).data.head? = some '🗑' := rfl
  rw [hcon] at h1
  have h2 : (("❌ 削除失敗: " ++ e)).data.head? = some '❌' := rfl
  exact absurd (h1.symm.trans h2) (by decide)

/-! ### Claims -/

/-- C4: for every id, resolution returns nothing when the inventory query
fails and when the id is absent from the snapshot; an id present exactly once
(identifiers compared after normalising both sides with `int`, so
string/number mismatches cause no false negatives) resolves to that record's
owning node and kind. -/
theorem resolve_spec (h : Hyp) (vmid : ℤ) :
    (∀ e, h.resources = Except.error e →
      get_device_node_and_type h vmid = (Option.none, Option.none)) ∧
    (∀ rs, h.resources = Except.ok rs →
      (∀ r ∈ rs, pyToInt r.vmid ≠ some vmid) →
      get_device_node_and_type h vmid = (Option.none, Option.none)) ∧
    (∀ rs, h.resources = Except.ok rs →
      (∀ r ∈ rs, (pyToInt r.vmid).isSome) →
      rs.countP (fun r => pyToInt r.vmid == some vmid) = 1 →
      ∀ r ∈ rs, pyToInt r.vmid = some vmid →
        get_device_node_and_type h vmid = (r.node, r.ty)) := by
  refine ⟨?_, ?_, ?_⟩
  · intro e he
    simp [get_device_node_and_type, he]
  · intro rs hrs hall
    simp [get_device_node_and_type, hrs, scanResources_absent vmid rs hall]
  · intro rs hrs hall hcount r hr hmatch
    simp [get_device_node_and_type, hrs,
      scanResources_unique vmid rs hall hcount r hr hmatch]

/-- C4 witness: in the fixture inventory, id 105 is carried as the string
`"105"` and still resolves to its node and kind. -/
theorem resolve_spec_witness :
    get_device_node_and_type hypEx 105 = (some ("pve2"), some ("lxc")) := by
  have h := (resolve_spec hypEx 105).2.2 [resEx, resExStr] rfl
    (by decide) (by decide) resExStr (by decide) (by decide)
  simpa using h

/-- C7: watchlist persistence round-trips — saving any list of ids and then
loading (the file read succeeding on the saved content) yields exactly the
saved list, hence the same set of ids order-insensitively. -/
theorem watchlist_roundtrip (ids seed : List ℤ) :
    load_monitor_list (save_monitor_list ids) seed = ids ∧
    (∀ x : ℤ, x ∈ load_monitor_list (save_monitor_list ids) seed ↔ x ∈ ids) := by
  refine ⟨load_save ids seed, fun x => by rw [load_save]⟩

/-- C8: info rendering is exact on its numeric fields — `maxmem=2147483648`,
`mem=1073741824` renders `"1024MB / 2048MB"`, and `uptime=3661` renders
`"1:01:01"`. -/
theorem info_rendering_exact :
    memoryFieldValue 2147483648 1073741824 = "1024MB / 2048MB" ∧
    timedeltaStr 3661 = "1:01:01" := by
  exact ⟨by decide, by decide⟩

/-- C9: the claim fails on the code — `cogs/basic.py` imports `proxmox`,
`run_proxmox_async` and `check_access` from `utils.api`, but `utils.api`
binds none of those names (it defines `AsyncProxmox`, `proxmox_wrapper`,
`get_device_node_and_type`, `vmid_autocomplete`; `check_access` lives in
`utils.common`), so the import raises and the basic-commands module does not
load. -/
theorem basic_import_fails :
    basicImportSucceeds = false ∧
    utilsApiNames.contains ("proxmox") = false ∧
    utilsApiNames.contains ("run_proxmox_async") = false ∧
    utilsApiNames.contains ("check_access") = false ∧
    utilsApiNames.contains ("get_device_node_and_type") = true ∧
    utilsApiNames.contains ("vmid_autocomplete") = true := by
  decide

/-- C10: on a tick whose alert destination channel cannot be resolved, the
tick returns immediately, before the watchlist is loaded: no load step, no
resolution calls, no status queries and no alerts. -/
theorem monitor_tick_no_channel (cfg : BotConfig) (file : Option String) (h : Hyp)
    (channelFound : Bool) (hch : channelFound = false) :
    monitor_vms_tick cfg channelFound file h = [] := by
  subst hch
  rfl

/-- C10 witness. -/
theorem monitor_tick_no_channel_witness :
    monitor_vms_tick cfgEx false (some ("[100]")) hypEx = [] :=
  monitor_tick_no_channel cfgEx (some ("[100]")) hypEx false rfl

/-- C1: every gated dispatcher action invoked from a context whose category
identifier differs from the configured administrative category (an absent
category included) returns exactly the fixed denial message and performs zero
hypervisor calls and no file mutation; from a matching category the access
check returns nothing (permit). -/
theorem access_gate_spec (cfg : BotConfig) (i : Interaction) (h : Hyp)
    (file : Option String) (vmid cores memoryMb templateId newVmid : ℤ)
    (name : String) :
    (i.categoryId ≠ some cfg.allowedCategoryId →
      check_access cfg i = some accessDeniedMsg ∧
      create_cmd cfg i h templateId newVmid name = ⟨[accessDeniedMsg], []⟩ ∧
      resize_cmd cfg i h vmid cores memoryMb = ⟨[accessDeniedMsg], []⟩ ∧
      start_cmd cfg i h vmid = ⟨[accessDeniedMsg], []⟩ ∧
      reboot_cmd cfg i h vmid = ⟨[accessDeniedMsg], []⟩ ∧
      shutdown_cmd cfg i h vmid = ⟨[accessDeniedMsg], []⟩ ∧
      stop_cmd cfg i vmid = ⟨[accessDeniedMsg], []⟩ ∧
      delete_cmd cfg i h vmid = ⟨[accessDeniedMsg], []⟩ ∧
      snapshot_create_cmd cfg i h vmid name = ⟨[accessDeniedMsg], []⟩ ∧
      snapshot_list_cmd cfg i h vmid = ⟨[accessDeniedMsg], []⟩ ∧
      snapshot_rollback_cmd cfg i h vmid name = ⟨[accessDeniedMsg], []⟩ ∧
      monitor_add_cmd cfg i file h vmid = ⟨file, [accessDeniedMsg], []⟩ ∧
      monitor_remove_cmd cfg i file vmid = ⟨file, [accessDeniedMsg], []⟩ ∧
      monitor_list_cmd cfg i file h = ⟨file, [accessDeniedMsg], []⟩) ∧
    (i.categoryId = some cfg.allowedCategoryId → check_access cfg i = Option.none) := by
  constructor
  · intro hne
    have hc : check_access cfg i = some accessDeniedMsg := by
      simp [check_access, hne]
    refine ⟨hc, ?_, ?_, ?_, ?_, ?_, ?_, ?_, ?_, ?_, ?_, ?_, ?_, ?_⟩ <;>
      simp [create_cmd, resize_cmd, start_cmd, reboot_cmd, shutdown_cmd, stop_cmd,
        delete_cmd, snapshot_create_cmd, snapshot_list_cmd, snapshot_rollback_cmd,
        monitor_add_cmd, monitor_remove_cmd, monitor_list_cmd, hc]
  · intro heq
    simp [check_access, heq]

/-- C1 witness: a mismatching category is denied with zero calls, a matching
one is permitted. -/
theorem access_gate_spec_witness :
    check_access cfgEx iBad = some accessDeniedMsg ∧
    delete_cmd cfgEx iBad hypEx 100 = ⟨[accessDeniedMsg], []⟩ ∧
    monitor_add_cmd cfgEx iBad (some ("[100]")) hypEx 100 =
      ⟨some ("[100]"), [accessDeniedMsg], []⟩ ∧
    check_access cfgEx iOk = Option.none := by
  have h1 := access_gate_spec cfgEx iBad hypEx (some ("[100]")) 100 2 2048 9000 101 ("x")
  have h2 := access_gate_spec cfgEx iOk hypEx (some ("[100]")) 100 2 2048 9000 101 ("x")
  have hd := h1.1 (by decide)
  exact ⟨hd.1, hd.2.2.2.2.2.2.2.1, hd.2.2.2.2.2.2.2.2.2.2.2.1, h2.2 (by decide)⟩

/-- C2 counterexample: the force-stop confirmation prompt is not one-shot —
two confirm signals issue two hard-stop calls, and a confirm signal after a
cancel still issues one (not a no-op), refuting the claim for the force-stop
prompt as stated. -/
theorem forceStop_confirm_not_one_shot :
    ¬ (stopCallCount (runForceStopView hypEx 100 [BtnEvent.confirm, BtnEvent.confirm]) ≤ 1) ∧
    stopCallCount (runForceStopView hypEx 100 [BtnEvent.cancel, BtnEvent.confirm]) = 1 := by
  decide

/-- C2 (corrected): the snapshot-rollback confirmation is one-shot — with a
succeeding rollback call, any sequence of button events yields at most one
rollback call, and any sequence beginning with cancel yields none — but the
force-stop confirmation is not: its view is never stopped or disabled, so it
issues one hard-stop call per confirm event, repeated confirms repeat the
action, and confirm after cancel is not a no-op. -/
theorem confirmation_views_spec (h : Hyp) (node ty : String) (vmid : ℤ)
    (snap : String) (nodeR tyR : String)
    (hok : h.rollbackPost snap = Except.ok ())
    (hres : resolveTruthy h vmid = some (nodeR, tyR)) :
    (∀ es, rollbackCallCount (runRollbackView h node ty vmid snap rbInit es) ≤ 1) ∧
    (∀ es, rollbackCallCount
        (runRollbackView h node ty vmid snap rbInit (BtnEvent.cancel :: es)) = 0) ∧
    (∀ es, stopCallCount (runForceStopView h vmid es) = es.count BtnEvent.confirm) := by
  refine ⟨?_, ?_, ?_⟩
  · intro es
    have hle := runRollbackView_le_one h node ty vmid snap hok es rbInit
    simpa [rbInit] using hle
  · intro es
    have hstep : runRollbackView h node ty vmid snap rbInit (BtnEvent.cancel :: es) =
        Effects.append ⟨["キャンセルしました。"], []⟩
          (runRollbackView h node ty vmid snap ⟨some false, true⟩ es) := rfl
    rw [hstep, runRollbackView_stopped h node ty vmid snap es ⟨some false, true⟩ rfl]
    rfl
  · exact runForceStopView_count h vmid nodeR tyR hres

/-- C2 witness for the corrected statement. -/
theorem confirmation_views_witness :
    rollbackCallCount (runRollbackView hypEx ("pve") ("qemu") 100 ("snap1") rbInit
      [BtnEvent.confirm, BtnEvent.confirm]) ≤ 1 ∧
    rollbackCallCount (runRollbackView hypEx ("pve") ("qemu") 100 ("snap1") rbInit
      [BtnEvent.cancel, BtnEvent.confirm]) = 0 ∧
    stopCallCount (runForceStopView hypEx 100 [BtnEvent.cancel, BtnEvent.confirm]) =
      [BtnEvent.cancel, BtnEvent.confirm].count BtnEvent.confirm := by
  have h := confirmation_views_spec hypEx ("pve") ("qemu") 100 ("snap1") ("pve") ("qemu")
    rfl (by decide)
  exact ⟨h.1 _, h.2.1 _, h.2.2 _⟩

/-- C3: for every delete invocation on a resolvable id, the graceful stop is
attempted first and its failure swallowed (the 2-second grace period runs
exactly when the stop succeeded), the delete call is still issued afterwards,
and the "delete failed" error is reported iff the delete call itself fails. -/
theorem delete_cmd_spec (cfg : BotConfig) (i : Interaction) (h : Hyp) (vmid : ℤ)
    (node ty : String)
    (hacc : check_access cfg i = Option.none)
    (hres : resolveTruthy h vmid = some (node, ty)) :
    (delete_cmd cfg i h vmid).calls =
      Call.clusterResourcesGet :: Call.stopPost node ty vmid ::
        ((match h.stopPost vmid with
          | Except.ok _ => [Call.sleep 2]
          | Except.error _ => []) ++ [Call.deletePost node ty vmid]) ∧
    (∀ e, h.deletePost vmid = Except.error e →
      (delete_cmd cfg i h vmid).msgs = ["❌ 削除失敗: " ++ e]) ∧
    (∀ u, h.deletePost vmid = Except.ok u →
      (delete_cmd cfg i h vmid).msgs = [deleteDoneMsg vmid] ∧
      ∀ e, (delete_cmd cfg i h vmid).msgs ≠ ["❌ 削除失敗: " ++ e]) := by
  rcases hstop : h.stopPost vmid with e1 | u1 <;>
    rcases hdel : h.deletePost vmid with e2 | u2 <;>
      refine ⟨?_, ?_, ?_⟩ <;>
        simp only [delete_cmd, hacc, hres, hstop, hdel] <;>
          simp [deleteDoneMsg_ne_fail]

/-- C3 witness: a failing stop call is swallowed, the delete call is still
issued (immediately, without the grace period), and no failure is reported
when the delete call succeeds. -/
theorem delete_cmd_spec_witness :
    (delete_cmd cfgEx iOk hypStopFail 100).calls =
      [Call.clusterResourcesGet, Call.stopPost ("pve") ("qemu") 100,
       Call.deletePost ("pve") ("qemu") 100] ∧
    (delete_cmd cfgEx iOk hypStopFail 100).msgs = [deleteDoneMsg 100] := by
  have h := delete_cmd_spec cfgEx iOk hypStopFail 100 ("pve") ("qemu") (by decide) (by decide)
  refine ⟨?_, (h.2.2 () rfl).1⟩
  rw [h.1]
  rfl

/-- C5: on every tick with a resolvable alert channel, the number of alerts
for an id equals its multiplicity in the loaded watchlist times its per-id
indicator — 1 exactly when it resolves and its live state is the string
"stopped", 0 when it is "running", fails to resolve, or its status fetch
raises — so each watched id behaves independently and one id's failure never
suppresses the remaining ids of the same tick. -/
theorem monitor_tick_spec (cfg : BotConfig) (file : Option String) (h : Hyp)
    (channelFound : Bool) (hch : channelFound = true) :
    ∀ vmid : ℤ, alertCountFor vmid (monitor_vms_tick cfg channelFound file h) =
      (load_monitor_list file cfg.monitorVmIds).count vmid * perIdAlert h vmid := by
  intro vmid
  subst hch
  have hstep : monitor_vms_tick cfg true file h =
      Step.loadList ::
        (load_monitor_list file cfg.monitorVmIds).flatMap (monitor_tick_one h) := by
    simp [monitor_vms_tick]
  rw [hstep]
  have hcons : alertCountFor vmid (Step.loadList ::
      (load_monitor_list file cfg.monitorVmIds).flatMap (monitor_tick_one h)) =
      alertCountFor vmid
        ((load_monitor_list file cfg.monitorVmIds).flatMap (monitor_tick_one h)) := by
    simp [alertCountFor, isAlertFor]
  rw [hcons, alertCountFor_flatMap]

/-- C5 witness: watchlist `[100]`, id 100 resolving with live status
`stopped` — exactly one alert on the tick. -/
theorem monitor_tick_spec_witness :
    alertCountFor 100 (monitor_vms_tick cfgEx true (some ("[100]")) hypEx) = 1 := by
  have h := monitor_tick_spec cfgEx (some ("[100]")) hypEx true rfl 100
  rw [h]
  decide

/-- C6: watchlist add — an id already in the stored list leaves the file
unchanged and reports "already monitored" with no hypervisor call; a new id
that fails to resolve reports "not found" without mutating the list; any
other id is appended and the whole list persisted (loading the new file gives
exactly the appended list). -/
theorem monitor_add_spec (cfg : BotConfig) (i : Interaction) (s : String)
    (h : Hyp) (vmid : ℤ)
    (hacc : check_access cfg i = Option.none) :
    (vmid ∈ load_monitor_list (some s) cfg.monitorVmIds →
      monitor_add_cmd cfg i (some s) h vmid =
        ⟨some s, [alreadyMonitoredMsg vmid], []⟩) ∧
    (vmid ∉ load_monitor_list (some s) cfg.monitorVmIds →
      truthy (get_device_node_and_type h vmid).1 = false →
      monitor_add_cmd cfg i (some s) h vmid =
        ⟨some s, [vmidNotFoundMsg vmid], [Call.clusterResourcesGet]⟩) ∧
    (vmid ∉ load_monitor_list (some s) cfg.monitorVmIds →
      truthy (get_device_node_and_type h vmid).1 = true →
      monitor_add_cmd cfg i (some s) h vmid =
        ⟨save_monitor_list (load_monitor_list (some s) cfg.monitorVmIds ++ [vmid]),
         [monitorAddedMsg vmid], [Call.clusterResourcesGet]⟩ ∧
      load_monitor_list (monitor_add_cmd cfg i (some s) h vmid).file cfg.monitorVmIds =
        load_monitor_list (some s) cfg.monitorVmIds ++ [vmid]) := by
  refine ⟨?_, ?_, ?_⟩
  · intro hmem
    simp [monitor_add_cmd, hacc, loadEnsuresFile, hmem]
  · intro hmem htr
    simp [monitor_add_cmd, hacc, loadEnsuresFile, hmem, htr]
  · intro hmem htr
    have heq : monitor_add_cmd cfg i (some s) h vmid =
        ⟨save_monitor_list (load_monitor_list (some s) cfg.monitorVmIds ++ [vmid]),
         [monitorAddedMsg vmid], [Call.clusterResourcesGet]⟩ := by
      simp [monitor_add_cmd, hacc, loadEnsuresFile, hmem, htr]
    exact ⟨heq, by rw [heq]; exact load_save _ _⟩

/-- C6 witness: adding 100 to stored list `[100]` leaves the file unchanged
and reports already-monitored. -/
theorem monitor_add_spec_witness :
    monitor_add_cmd cfgEx iOk (some ("[100]")) hypEx 100 =
      ⟨some ("[100]"), [alreadyMonitoredMsg 100], []⟩ := by
  have h := monitor_add_spec cfgEx iOk ("[100]") hypEx 100 (by decide)
  exact h.1 (by decide)

end ProxmoxBot
